import Mathlib

/-!
Verification development for the CloudWatch Application Signals audit pipeline
(`awslabs/cloudwatch_appsignals_mcp_server`): a shallow embedding of the target
normalization, wildcard/fuzzy expansion, validation/enrichment, batching and
aggregation code of `server.py` and `audit_utils.py`, together with theorems
about the embedded functions.

Modelling conventions:
* Python strings are Lean `String`s (ASCII assumed); helpers below mirror
  `str.lower`, `str.strip`, `str.split`, substring tests and `str.strip('*')`
  over `List Char`, written structurally so the kernel can evaluate them.
* Python `dict` targets are modelled by the inductive `PTarget`, which covers
  the shapes the embedded functions actually distinguish (canonical service /
  nested-SLO / service-operation targets plus opaque pass-through values).
  Absent-or-`None` string fields are `Option String`; Python truthiness of a
  string field is "present and non-empty".
* AWS calls are oracles passed in as values (`Except` for fallible calls,
  a list of pages for the paginated SLO listing); exceptions are `Except.error`.
* Python float arithmetic in the similarity scorer (`int(ratio * 60)` etc.) is
  modelled by exact integer division; the theorems proved about the scorer only
  concern its early-return and clamping behavior, which is insensitive to the
  rounding of the interior accumulation.
-/

namespace AppSignals

/-! ## Python string primitives -/

/-- Characters `str.strip()` removes (ASCII whitespace). -/
def isPyWhitespace (c : Char) : Bool :=
  c = ' ' ∨ c = '\t' ∨ c = '\n' ∨ c = '\r' ∨ c = Char.ofNat 11 ∨ c = Char.ofNat 12

/-- `str.lower()` on ASCII text. -/
def pyLower (l : List Char) : List Char := l.map Char.toLower

/-- `str.strip()`: drop leading and trailing whitespace. -/
def pyStrip (l : List Char) : List Char :=
  ((l.dropWhile isPyWhitespace).reverse.dropWhile isPyWhitespace).reverse

/-- `str.strip('*')`: drop leading and trailing `'*'` characters. -/
def stripStarChars (l : List Char) : List Char :=
  ((l.dropWhile (· = '*')).reverse.dropWhile (· = '*')).reverse

/-- `.replace('_', '-').replace('.', '-')` (single-character replacements). -/
def normalizeSpecialChars (l : List Char) : List Char :=
  l.map fun c => if c = '_' ∨ c = '.' then '-' else c

/-- Helper for `str.split()`: accumulate the current word (reversed). -/
def splitWsGo : List Char → List Char → List (List Char)
  | [], acc => if acc = [] then [] else [acc.reverse]
  | c :: rest, acc =>
    if isPyWhitespace c then
      if acc = [] then splitWsGo rest [] else acc.reverse :: splitWsGo rest []
    else
      splitWsGo rest (c :: acc)

/-- `str.split()` with no argument: split on whitespace runs, no empty words. -/
def splitWs (l : List Char) : List (List Char) := splitWsGo l []

/-- Does `l` start with `p`? -/
def startsWithList : List Char → List Char → Bool
  | [], _ => true
  | _ :: _, [] => false
  | a :: as, b :: bs => a = b && startsWithList as bs

/-- Python's `needle in hay` substring test on strings. -/
def containsList (needle hay : List Char) : Bool :=
  match hay with
  | [] => needle = []
  | _ :: rest => startsWithList needle hay || containsList needle rest

/-- Split on `','` keeping empty segments, like Python `s.split(',')`. -/
def splitOnComma : List Char → List (List Char)
  | [] => [[]]
  | c :: rest =>
    if c = ',' then [] :: splitOnComma rest
    else
      match splitOnComma rest with
      | [] => [[c]]
      | seg :: segs => (c :: seg) :: segs

/-- `s.lower()` on a `String`. -/
def pyLowerStr (s : String) : String := String.mk (pyLower s.data)

/-- `s.strip()` on a `String`. -/
def pyStripStr (s : String) : String := String.mk (pyStrip s.data)

/-- Substring test on `String`s. -/
def containsSub (hay needle : String) : Bool := containsList needle.data hay.data

/-! ## Name similarity scorer (`server.py calculate_name_similarity`) -/

/-- Domain key terms used for `name_type = "slo"`. -/
def sloKeyTerms : List (List Char) :=
  ["availability", "latency", "error", "fault", "search", "owner",
   "response", "time", "success", "failure", "request", "operation"].map String.data

/-- Domain key terms used for service names. -/
def serviceKeyTerms : List (List Char) :=
  ["service", "api", "web", "app", "backend", "frontend", "database",
   "cache", "queue", "worker", "lambda", "function", "microservice"].map String.data

/-- Embedding of `calculate_name_similarity(target_name, candidate_name, name_type)`.
Scores 0-100; early returns 0 on empty stripped input, 100 on case-insensitive
equality, 95 on equality after `_`/`.` → `-` normalization; otherwise
accumulates word-overlap, substring-containment and key-term components and
applies a length penalty, clamped to 100.  The Python float expressions
`int(ratio * k)` and the `>= 0.8` / `>= 0.6` coverage tests are modelled by
exact integer arithmetic. -/
def calculate_name_similarity (target_name candidate_name : String)
    (name_type : String) : Nat :=
  let target_lower := pyStrip (pyLower target_name.data)
  let candidate_lower := pyStrip (pyLower candidate_name.data)
  if target_lower = [] ∨ candidate_lower = [] then 0
  else if target_lower = candidate_lower then 100
  else
    let tn := normalizeSpecialChars target_lower
    let cn := normalizeSpecialChars candidate_lower
    if tn = cn then 95
    else
      let targetWords := (splitWs tn).dedup
      let candidateWords := (splitWs cn).dedup
      let commonCount := (targetWords.filter (fun w => candidateWords.contains w)).length
      let unionCount := ((targetWords ++ candidateWords).dedup).length
      let wordScore : Nat :=
        if targetWords ≠ [] ∧ candidateWords ≠ [] ∧ 0 < commonCount then
          (commonCount * 60) / unionCount
          + (if 5 * commonCount ≥ 4 * targetWords.length then 20
             else if 5 * commonCount ≥ 3 * targetWords.length then 10
             else 0)
        else 0
      let substringScore : Nat :=
        if containsList tn cn then (tn.length * 30) / cn.length
        else if containsList cn tn then (cn.length * 25) / tn.length
        else 0
      let keyTerms := if name_type = "slo" then sloKeyTerms else serviceKeyTerms
      let commonKeyTerms :=
        (keyTerms.filter (fun t => containsList t tn && containsList t cn)).length
      let keyTermScore := commonKeyTerms * 8
      let raw := wordScore + substringScore + keyTermScore
      let lengthDiff := max tn.length cn.length - min tn.length cn.length
      let penalized :=
        if 20 < lengthDiff then raw - 15
        else if 10 < lengthDiff then raw - 5
        else raw
      min 100 penalized

/-! ## Catalog types

`ServiceSummary`/`SloSummary` model the entries returned by the Catalog
Service.  A `dict.get(k, '')` access is modelled by a plain `String` field
where `""` stands for an absent key; all uses in the embedded code compare for
equality against non-empty names or test truthiness, for which this is
behavior-equivalent to Python's absent-key/`None` handling. -/

structure KeyAttributes where
  name : String
  ktype : String
  environment : String
deriving DecidableEq, Repr

structure ServiceSummary where
  keyAttributes : KeyAttributes
deriving DecidableEq, Repr

structure SloSummary where
  name : String
  arn : String
deriving DecidableEq, Repr

/-! ## Audit targets

`PTarget` models the loosely structured target dicts flowing through the
pipeline.  `svc` is a `{"Type":"service","Data":{"Service":{...}}}` dict,
`sloNested` a `{"Type":"slo","Data":{"Slo":{...}}}` dict, `svcOp` a
`{"Type":"service_operation","Data":{"ServiceOperation":{...}}}` dict
(the nested service's non-name fields are not tracked), `otherType` any dict
with a different `Type`, and `nonDict` a non-object JSON value.  Shorthand
service dicts (a top-level `"Service"` key) are not represented. -/

structure SvcEntity where
  name : Option String
  environment : Option String
deriving DecidableEq, Repr

inductive PTarget
  | svc (entity : SvcEntity)
  | svcOp (svcName : Option String) (operation : Option String) (metricType : Option String)
  | sloNested (sloName : Option String) (sloArn : Option String)
  | otherType (tag : Nat)
  | nonDict (tag : Nat)
deriving DecidableEq, Repr

/-- Python truthiness of an optional string field. -/
def optTruthy : Option String → Bool
  | none => false
  | some s => s ≠ ""

/-- A `.get('Environment')`-style read of a catalog environment back into an
optional target field (`""` models the absent/`None` case). -/
def envOpt (e : String) : Option String := if e = "" then none else some e

/-- Does a string contain `'*'`? -/
def hasStar (s : String) : Bool := s.data.contains '*'

/-- `'*' in str(target)`: the wildcard-detection probe `audit_services` runs
on the raw target list before deciding to expand (it stringifies the whole
dict, so every tracked string field is searched). -/
def containsStar : PTarget → Bool
  | .svc e => hasStar (e.name.getD "") || hasStar (e.environment.getD "")
  | .svcOp n op mt => hasStar (n.getD "") || hasStar (op.getD "") || hasStar (mt.getD "")
  | .sloNested n a => hasStar (n.getD "") || hasStar (a.getD "")
  | .otherType _ => false
  | .nonDict _ => false

/-! ## Stable descending sort

`best_matches.sort(key=..., reverse=True)` is a stable descending sort; the
insertion sort below is stable (a later element is inserted after all
earlier elements of equal key) and therefore computes the same list. -/

def insertByScoreDesc (key : α → Nat) (x : α) : List α → List α
  | [] => [x]
  | y :: ys => if key y ≤ key x then x :: y :: ys else y :: insertByScoreDesc key x ys

def sortByScoreDesc (key : α → Nat) : List α → List α
  | [] => []
  | x :: xs => insertByScoreDesc key x (sortByScoreDesc key xs)

/-! ## Fuzzy expansion of service names

Shared by `server.py expand_wildcard_targets` and
`audit_utils.expand_service_wildcard_patterns` (their fuzzy-match blocks are
identical): score every catalog name, keep scores ≥ 30, sort descending,
keep the single best match if it scores ≥ 85 and the top 3 otherwise, and
pass the original target through when nothing reaches the threshold. -/

structure ScoredSvc where
  name : String
  environment : String
  score : Nat
deriving DecidableEq, Repr

/-- The `(service_name, environment, score)` triples collected above the
30-point threshold, in catalog order (entries with empty names skipped). -/
def serviceFuzzyCandidates (inexact : String) (services : List ServiceSummary) :
    List ScoredSvc :=
  services.filterMap fun s =>
    if s.keyAttributes.name = "" then none
    else
      let sc := calculate_name_similarity inexact s.keyAttributes.name "service"
      if 30 ≤ sc then some ⟨s.keyAttributes.name, s.keyAttributes.environment, sc⟩
      else none

/-- `best_matches` after the descending sort. -/
def serviceBestMatches (inexact : String) (services : List ServiceSummary) :
    List ScoredSvc :=
  sortByScoreDesc (fun m => m.score) (serviceFuzzyCandidates inexact services)

/-- The expanded service target built from one kept fuzzy match. -/
def svcTargetOfMatch (m : ScoredSvc) : PTarget :=
  .svc ⟨some m.name, envOpt m.environment⟩

/-- Fuzzy expansion of one inexact service name. -/
def serviceFuzzyExpand (orig : PTarget) (inexact : String)
    (services : List ServiceSummary) : List PTarget :=
  match serviceBestMatches inexact services with
  | [] => [orig]
  | top :: rest =>
    (if 85 ≤ top.score then [top] else (top :: rest).take 3).map svcTargetOfMatch

/-! ## Pattern expansion helpers -/

/-- `pattern.strip('*').lower() if pattern != '*' else ''`. -/
def patternSearchTerm (pattern : String) : String :=
  if pattern = "*" then "" else String.mk (pyLower (stripStarChars pattern.data))

/-- `search_term == '' or search_term in service_name.lower()`. -/
def searchTermMatches (term : String) (name : String) : Bool :=
  term = "" || containsList term.data (pyLower name.data)

/-- The placeholder filter of `audit_utils.expand_service_wildcard_patterns`:
skip entries with an empty name, the `"Unknown"` placeholder name, or a
`Type` other than `"Service"`. -/
def isRealServiceEntry (s : ServiceSummary) : Bool :=
  ¬ (s.keyAttributes.name = "" || s.keyAttributes.name = "Unknown"
     || s.keyAttributes.ktype ≠ "Service")

/-- Concrete service target built by pattern expansion from a catalog entry. -/
def svcTargetOfSummary (s : ServiceSummary) : PTarget :=
  .svc ⟨some s.keyAttributes.name, envOpt s.keyAttributes.environment⟩

/-! ## `audit_utils.expand_service_wildcard_patterns`

The shared-utility service expander: classify service targets into wildcard
patterns (`'*'` in the name) and fuzzy candidates (non-empty name without
`'*'`), pass everything else through, then expand patterns against the
placeholder-filtered catalog and fuzzy-match the rest.  A catalog failure
while patterns or fuzzy candidates are pending raises a `ValueError` naming
every unresolved pattern, modelled by `ExpandErr.serviceExpandFailed`. -/

inductive ExpandErr
  | serviceExpandFailed (patternNames : List String) (apiError : String)
deriving DecidableEq, Repr

/-- Classification result of the first pass over the target list. -/
structure SvcClassify where
  passThrough : List PTarget
  patterns : List (PTarget × String)
  fuzzy : List (PTarget × String)
deriving Repr

/-- First pass of `expand_service_wildcard_patterns`: a service target with a
non-empty string name is a pattern (name contains `'*'`) or a fuzzy
candidate; every other target passes through unchanged. -/
def classifyServiceTargetsUtils (targets : List PTarget) : SvcClassify :=
  targets.foldl
    (fun acc t =>
      match t with
      | .svc e =>
        let name := e.name.getD ""
        if name ≠ "" then
          if hasStar name then
            { acc with patterns := acc.patterns ++ [(t, name)] }
          else
            { acc with fuzzy := acc.fuzzy ++ [(t, name)] }
        else { acc with passThrough := acc.passThrough ++ [t] }
      | _ => { acc with passThrough := acc.passThrough ++ [t] })
    ⟨[], [], []⟩

/-- Expansion of one wildcard pattern against the (placeholder-filtered)
service catalog. -/
def expandServicePatternUtils (pattern : String) (services : List ServiceSummary) :
    List PTarget :=
  services.filterMap fun s =>
    if isRealServiceEntry s then
      if searchTermMatches (patternSearchTerm pattern) s.keyAttributes.name then
        some (svcTargetOfSummary s)
      else none
    else none

/-- `audit_utils.expand_service_wildcard_patterns(targets, client, start, end)`
with the catalog call `list_services` passed in as an oracle. -/
def expand_service_wildcard_patterns (targets : List PTarget)
    (listServicesApi : Except String (List ServiceSummary)) :
    Except ExpandErr (List PTarget) :=
  let c := classifyServiceTargetsUtils targets
  if c.patterns = [] ∧ c.fuzzy = [] then .ok c.passThrough
  else
    match listServicesApi with
    | .error e =>
      .error (.serviceExpandFailed (c.patterns.map Prod.snd ++ c.fuzzy.map Prod.snd) e)
    | .ok services =>
      .ok (c.passThrough
        ++ (c.patterns.flatMap fun p => expandServicePatternUtils p.2 services)
        ++ (c.fuzzy.flatMap fun p => serviceFuzzyExpand p.1 p.2 services))

/-! ## Paginated SLO catalog fetch (`server.py expand_wildcard_targets`)

The paginated `list_service_level_objectives` interface is modelled by a list
of pages; a call carrying continuation token `i` returns page `i` and token
`i+1` while more pages remain.  `fetchSlosGo` is the `while True` loop of
`server.py` (fetch, extend, follow `NextToken`, stop when absent), written
with a fuel argument (`pages.length + 1` always suffices) so that it is
structurally recursive. -/

def fetchSlosGo (pages : List (List SloSummary)) : Nat → Nat → List SloSummary
  | 0, _ => []
  | fuel + 1, i =>
    let batch := pages.getD i []
    if i + 1 < pages.length then batch ++ fetchSlosGo pages fuel (i + 1)
    else batch

/-- `all_slos` after the pagination loop. -/
def fetchAllSlos (pages : List (List SloSummary)) : List SloSummary :=
  fetchSlosGo pages (pages.length + 1) 0

/-! ## `server.py expand_wildcard_targets`

The inline unified expander of `audit_services`: one classification pass over
services, SLOs and service operations, then a service-expansion phase (one
`list_services` call; failure raises a `ValueError` naming every pending
pattern) and an SLO-expansion phase (paginated fetch; failure appends the
original pattern targets back instead of raising).  Unlike the shared-utility
version, its service pattern loop applies no placeholder filter.  External
calls are recorded in an event trace, one event per fetch episode. -/

inductive ExtCall
  | listServices
  | listSlos
  | auditBackend
deriving DecidableEq, Repr

/-- Classification result of the first pass of `expand_wildcard_targets`. -/
structure UnifiedClassify where
  passThrough : List PTarget
  servicePatterns : List (PTarget × String)
  serviceFuzzy : List (PTarget × String)
  sloPatterns : List (PTarget × String)
  sloFuzzy : List (PTarget × String)
deriving Repr

/-- One step of the first pass of `expand_wildcard_targets`: service names
(default `""`) split into patterns and fuzzy candidates; nested SLO names
likewise; a service-operation target joins the service patterns when its
service name has a wildcard and passes through otherwise; anything else
passes through. -/
def classifyUnifiedStep (acc : UnifiedClassify) (t : PTarget) : UnifiedClassify :=
  match t with
  | .svc e =>
    let name := e.name.getD ""
    if hasStar name then
      { acc with servicePatterns := acc.servicePatterns ++ [(t, name)] }
    else { acc with serviceFuzzy := acc.serviceFuzzy ++ [(t, name)] }
  | .sloNested n _ =>
    let name := n.getD ""
    if hasStar name then
      { acc with sloPatterns := acc.sloPatterns ++ [(t, name)] }
    else { acc with sloFuzzy := acc.sloFuzzy ++ [(t, name)] }
  | .svcOp n _ _ =>
    let name := n.getD ""
    if hasStar name then
      { acc with servicePatterns := acc.servicePatterns ++ [(t, name)] }
    else { acc with passThrough := acc.passThrough ++ [t] }
  | t => { acc with passThrough := acc.passThrough ++ [t] }

/-- The whole first pass of `expand_wildcard_targets`. -/
def classifyUnified (targets : List PTarget) : UnifiedClassify :=
  targets.foldl classifyUnifiedStep ⟨[], [], [], [], []⟩

/-- Expansion of one service pattern in `expand_wildcard_targets`: every
catalog entry whose name contains the search term produces one concrete
target (no placeholder filter); a `service_operation` pattern carries its
operation and metric type onto each expanded target. -/
def expandServicePatternServer (orig : PTarget) (pattern : String)
    (services : List ServiceSummary) : List PTarget :=
  services.filterMap fun s =>
    if searchTermMatches (patternSearchTerm pattern) s.keyAttributes.name then
      some (match orig with
        | .svcOp _ op mt => .svcOp (some s.keyAttributes.name) (some (op.getD ""))
            (some (mt.getD "Latency"))
        | _ => svcTargetOfSummary s)
    else none

/-- Scored SLO fuzzy candidates above the 30-point threshold, catalog order. -/
structure ScoredSlo where
  name : String
  score : Nat
deriving DecidableEq, Repr

def sloFuzzyCandidates (inexact : String) (slos : List SloSummary) : List ScoredSlo :=
  slos.filterMap fun s =>
    if s.name = "" then none
    else
      let sc := calculate_name_similarity inexact s.name "slo"
      if 30 ≤ sc then some ⟨s.name, sc⟩ else none

def sloBestMatches (inexact : String) (slos : List SloSummary) : List ScoredSlo :=
  sortByScoreDesc (fun m => m.score) (sloFuzzyCandidates inexact slos)

/-- Concrete SLO target built by `expand_wildcard_targets` (name only). -/
def sloTargetOfName (name : String) : PTarget := .sloNested (some name) none

/-- Fuzzy expansion of one inexact SLO name. -/
def sloFuzzyExpand (orig : PTarget) (inexact : String) (slos : List SloSummary) :
    List PTarget :=
  match sloBestMatches inexact slos with
  | [] => [orig]
  | top :: rest =>
    (if 85 ≤ top.score then [top] else (top :: rest).take 3).map
      fun m => sloTargetOfName m.name

/-- Expansion of one SLO pattern against the merged SLO catalog. -/
def expandSloPatternServer (pattern : String) (slos : List SloSummary) :
    List PTarget :=
  slos.filterMap fun s =>
    if searchTermMatches (patternSearchTerm pattern) s.name then
      some (sloTargetOfName s.name)
    else none

/-- `server.py expand_wildcard_targets(targets)` with the two catalog
interfaces passed as oracles.  Returns the expanded list or the fatal
service-expansion `ValueError`, together with the external-call trace. -/
def expand_wildcard_targets (targets : List PTarget)
    (listServicesApi : Except String (List ServiceSummary))
    (listSlosApi : Except String (List (List SloSummary))) :
    Except ExpandErr (List PTarget) × List ExtCall :=
  let c := classifyUnified targets
  -- service phase
  let svcPhase : Except ExpandErr (List PTarget) × List ExtCall :=
    if c.servicePatterns = [] ∧ c.serviceFuzzy = [] then (.ok c.passThrough, [])
    else
      match listServicesApi with
      | .error e =>
        (.error (.serviceExpandFailed
          (c.servicePatterns.map Prod.snd ++ c.serviceFuzzy.map Prod.snd) e),
         [.listServices])
      | .ok services =>
        (.ok (c.passThrough
          ++ (c.servicePatterns.flatMap fun p =>
                expandServicePatternServer p.1 p.2 services)
          ++ (c.serviceFuzzy.flatMap fun p => serviceFuzzyExpand p.1 p.2 services)),
         [.listServices])
  match svcPhase with
  | (.error e, evs) => (.error e, evs)
  | (.ok afterSvc, evs) =>
    -- SLO phase
    if c.sloPatterns = [] ∧ c.sloFuzzy = [] then (.ok afterSvc, evs)
    else
      match listSlosApi with
      | .error _ =>
        -- on failure the original pattern targets are appended back: no raise
        (.ok (afterSvc ++ c.sloPatterns.map Prod.fst ++ c.sloFuzzy.map Prod.fst),
         evs ++ [.listSlos])
      | .ok pages =>
        let allSlos := fetchAllSlos pages
        (.ok (afterSvc
          ++ (c.sloPatterns.flatMap fun p => expandSloPatternServer p.2 allSlos)
          ++ (c.sloFuzzy.flatMap fun p => sloFuzzyExpand p.1 p.2 allSlos)),
         evs ++ [.listSlos])

/-! ## Target normalization (`server.py _normalize_targets`)

`_normalize_targets` applies the tolerant service coercion
(`_coerce_service_target`, which drops falsy fields) followed by the strict
per-type normalizers.  A service target needs a truthy name (the coercion
drops an empty name and `_need` then fails); an SLO target needs a truthy
`SloArn` or `SloName` (ARN preferred); a service-operation target needs a
`Service` with a `Name` key (an empty name is accepted: `_need` only rejects
the absent key) and a truthy `Operation`, and defaults `MetricType` to
`"Latency"`.  Non-objects and unknown types are rejected. -/

inductive NormErr
  | notAnObject (idx : Nat)
  | badType (idx : Nat)
  | missingServiceName (idx : Nat)
  | missingSloId (idx : Nat)
  | missingSvcOpService (idx : Nat)
  | missingOperation (idx : Nat)
deriving DecidableEq, Repr

/-- Normalization of one target (1-based index used in error positions). -/
def normalizeTarget (idx : Nat) : PTarget → Except NormErr PTarget
  | .svc e =>
    if optTruthy e.name then
      .ok (.svc ⟨e.name, if optTruthy e.environment then e.environment else none⟩)
    else .error (.missingServiceName idx)
  | .sloNested n a =>
    if optTruthy a then .ok (.sloNested none a)
    else if optTruthy n then .ok (.sloNested n none)
    else .error (.missingSloId idx)
  | .svcOp n op mt =>
    match n with
    | none => .error (.missingSvcOpService idx)
    | some sname =>
      if optTruthy op then
        .ok (.svcOp (some sname) op (some (if optTruthy mt then mt.getD "" else "Latency")))
      else .error (.missingOperation idx)
  | .otherType _ => .error (.badType idx)
  | .nonDict _ => .error (.notAnObject idx)

/-- `_normalize_targets`: normalize each target in order, failing on the
first bad one (indices start at 1). -/
def normalize_targets_go (idx : Nat) : List PTarget → Except NormErr (List PTarget)
  | [] => .ok []
  | t :: rest =>
    match normalizeTarget idx t with
    | .error e => .error e
    | .ok t' =>
      match normalize_targets_go (idx + 1) rest with
      | .error e => .error e
      | .ok ts => .ok (t' :: ts)

def normalize_targets (targets : List PTarget) : Except NormErr (List PTarget) :=
  normalize_targets_go 1 targets

/-! ## Validation and enrichment (`server.py _validate_and_enrich_targets`)

Runs after expansion and normalization.  A service target whose name still
contains `'*'` is an internal error; a service target without a truthy
`Environment` but with a truthy name triggers an exact-name catalog lookup
(enrich on success, positional error when the service is missing or has no
environment, error when the call itself fails); a service target with
neither is rejected outright.  Normalized SLO targets carry a non-empty
`Data.Slo` object and pass through, as do service-operation and other
targets.  Catalog lookups are recorded in the event trace. -/

inductive VErr
  | wildcardInValidation (idx : Nat) (name : String)
  | svcNotFound (idx : Nat) (name : String)
  | svcNoEnvironment (idx : Nat) (name : String)
  | envRequired (idx : Nat)
  | sloMissingId (idx : Nat)
  | apiFailure (idx : Nat) (msg : String)
deriving DecidableEq, Repr

/-- Exact-name catalog lookup used by the enricher. -/
def findServiceByName (name : String) (services : List ServiceSummary) :
    Option ServiceSummary :=
  services.find? fun s => s.keyAttributes.name = name

/-- Validation/enrichment of one target. -/
def validateTarget (listServicesApi : Except String (List ServiceSummary))
    (idx : Nat) : PTarget → Except VErr PTarget × List ExtCall
  | .svc e =>
    let name := e.name.getD ""
    if hasStar name then (.error (.wildcardInValidation idx name), [])
    else if ¬ optTruthy e.environment ∧ name ≠ "" then
      match listServicesApi with
      | .error m => (.error (.apiFailure idx m), [.listServices])
      | .ok services =>
        match findServiceByName name services with
        | some s =>
          if s.keyAttributes.environment ≠ "" then
            (.ok (.svc ⟨e.name, some s.keyAttributes.environment⟩), [.listServices])
          else (.error (.svcNoEnvironment idx name), [.listServices])
        | none => (.error (.svcNotFound idx name), [.listServices])
    else if ¬ optTruthy e.environment then (.error (.envRequired idx), [])
    else (.ok (.svc e), [])
  | .sloNested n a =>
    -- `data.get("Slo")` is truthy iff the nested object has at least one key
    if n ≠ none ∨ a ≠ none then (.ok (.sloNested n a), [])
    else (.error (.sloMissingId idx), [])
  | t => (.ok t, [])

/-- `_validate_and_enrich_targets` over the whole list (1-based indices). -/
def validate_and_enrich_targets_go (listServicesApi : Except String (List ServiceSummary))
    (idx : Nat) : List PTarget → Except VErr (List PTarget) × List ExtCall
  | [] => (.ok [], [])
  | t :: rest =>
    match validateTarget listServicesApi idx t with
    | (.error e, evs) => (.error e, evs)
    | (.ok t', evs) =>
      match validate_and_enrich_targets_go listServicesApi (idx + 1) rest with
      | (.error e, evs2) => (.error e, evs ++ evs2)
      | (.ok ts, evs2) => (.ok (t' :: ts), evs ++ evs2)

def validate_and_enrich_targets (listServicesApi : Except String (List ServiceSummary))
    (targets : List PTarget) : Except VErr (List PTarget) × List ExtCall :=
  validate_and_enrich_targets_go listServicesApi 1 targets

/-! ## Auditor selection (`server.py` auditors block / `audit_utils.parse_auditors`) -/

def ALLOWED_AUDITORS : List String :=
  ["slo", "operation_metric", "trace", "log",
   "dependency_metric", "top_contributor", "service_quota"]

/-- `[a.strip() for a in value.split(",") if a.strip()]`. -/
def splitAuditors (value : String) : List String :=
  ((splitOnComma value.data).map fun seg => String.mk (pyStrip seg)).filter (· ≠ "")

/-- `raw_a`: the requested auditor list before validation.  `none` defaults to
the fast auditors unless the user prompt mentions "root cause"; `"all"` maps
to the empty list (meaning: all auditors). -/
def rawAuditors (auditorsValue : Option String) (userPrompt : String) : List String :=
  match auditorsValue with
  | none =>
    if containsSub (pyLowerStr userPrompt) "root cause" then [] else ["slo", "operation_metric"]
  | some v =>
    if pyLowerStr v = "all" then [] else splitAuditors v

/-- The auditor names outside the allowed set. -/
def invalidAuditors (raw : List String) : List String :=
  raw.filter fun a => ¬ ALLOWED_AUDITORS.contains a

/-- Auditor validation: the empty list passes (all auditors); otherwise every
name must be allowed, and the invalid names are reported. -/
def parse_auditors (auditorsValue : Option String) (userPrompt : String) :
    Except (List String) (List String) :=
  let raw := rawAuditors auditorsValue userPrompt
  if raw = [] then .ok []
  else if invalidAuditors raw ≠ [] then .error (invalidAuditors raw)
  else .ok raw

/-! ## Batching (`server.py audit_services` / `audit_utils.execute_audit_cli`)

More than 5 targets are split into consecutive slices of 5 (`targets[i:i+5]`
for `i = 0, 5, 10, ...`); 5 or fewer form a single batch. -/

/-- The slicing loop, fuel-structured (`fuel ≥ l.length` suffices). -/
def chunksGo : Nat → List α → List (List α)
  | _, [] => []
  | 0, _ :: _ => []
  | fuel + 1, a :: l => ((a :: l).take 5) :: chunksGo fuel ((a :: l).drop 5)

def chunkBatches (l : List α) : List (List α) := chunksGo l.length l

/-- `target_batches` as built by the executor. -/
def targetBatches (targets : List α) : List (List α) :=
  if 5 < targets.length then chunkBatches targets else [targets]

/-! ## Batch execution and aggregation

One backend invocation per batch, sequentially, continuing after failures.
A non-zero exit becomes an error record carrying the batch index and the
count of *input* targets of that batch; a JSON response contributes its
`AuditFindings` and the length of its `AuditTargets` array (the response's
echo of the targets, not the input batch); non-JSON output becomes a raw
record.  (Backend responses are modelled with just the two fields the
aggregation reads; a response JSON carrying its own `"error"` key is outside
the modelled domain.) -/

inductive CliResult (F T : Type)
  | exitNonzero (rc : Int) (errText : String)
  | stdoutJson (auditFindings : List F) (auditTargets : List T)
  | stdoutNonJson (raw : String)

inductive BatchOutcome (F T : Type)
  | failed (batchIndex : Nat) (error : String) (targetsCount : Nat)
  | okJson (auditFindings : List F) (auditTargets : List T)
  | rawOutput (batchIndex : Nat) (raw : String)
deriving DecidableEq

/-- Outcome recorded for one batch. -/
def outcomeOf (idx : Nat) (nTargets : Nat) : CliResult F T → BatchOutcome F T
  | .exitNonzero rc _ => .failed idx ("CLI exit code: " ++ toString rc) nTargets
  | .stdoutJson fs ts => .okJson fs ts
  | .stdoutNonJson raw => .rawOutput idx raw

/-- The sequential batch loop (`enumerate(target_batches, 1)`). -/
def runBatchesGo (backend : Nat → List τ → CliResult F T) (idx : Nat) :
    List (List τ) → List (BatchOutcome F T)
  | [] => []
  | b :: bs => outcomeOf idx b.length (backend idx b) :: runBatchesGo backend (idx + 1) bs

def runBatches (backend : Nat → List τ → CliResult F T) (batches : List (List τ)) :
    List (BatchOutcome F T) :=
  runBatchesGo backend 1 batches

def isFailedOutcome : BatchOutcome F T → Bool
  | .failed _ _ _ => true
  | _ => false

structure BatchSummary where
  totalBatches : Nat
  successfulBatches : Nat
  failedBatches : Nat
  totalTargetsProcessed : Nat
  totalFindingsCount : Nat
deriving DecidableEq, Repr

structure BatchErrorEntry where
  batch : Nat
  error : String
  targetsCount : Nat
deriving DecidableEq, Repr

structure AggregatedReport (F T : Type) where
  auditFindings : List F
  summary : BatchSummary
  batchErrors : Option (List BatchErrorEntry)
deriving DecidableEq

/-- The aggregation loop at the end of `audit_services` /
`execute_audit_cli`: findings concatenated across non-error outcomes in batch
order, `TotalTargetsProcessed` summed from the `AuditTargets` arrays of the
non-error responses, failed batches counted, and `BatchErrors` attached when
any batch failed. -/
def aggregate_batch_results (outcomes : List (BatchOutcome F T))
    (totalBatches : Nat) : AggregatedReport F T :=
  let failed := (outcomes.filter isFailedOutcome).length
  let findings := outcomes.flatMap fun o =>
    match o with
    | .okJson fs _ => fs
    | _ => []
  let targetsProcessed := (outcomes.map fun o =>
    match o with
    | .okJson _ ts => ts.length
    | _ => 0).sum
  { auditFindings := findings
    summary :=
      { totalBatches := totalBatches
        successfulBatches := totalBatches - failed
        failedBatches := failed
        totalTargetsProcessed := targetsProcessed
        totalFindingsCount := findings.length }
    batchErrors :=
      if 0 < failed then
        some (outcomes.filterMap fun o =>
          match o with
          | .failed i e c => some ⟨i, e, c⟩
          | _ => none)
      else none }

/-- The whole batch-execution stage: split, run sequentially, aggregate. -/
def execute_audit_batches (backend : Nat → List τ → CliResult F T)
    (targets : List τ) : AggregatedReport F T :=
  let batches := targetBatches targets
  aggregate_batch_results (runBatches backend batches) batches.length

/-! ## The `audit_services` pipeline

The stage order of `server.py audit_services` after JSON parsing and the
time-range check: wildcard expansion (only when some raw target stringifies
with a `'*'`), empty-list check, normalization, validation/enrichment,
auditor validation, then the batched backend execution and aggregation.
Every error path returns before the stages after it run; the trace collects
the external calls in order.  (JSON decoding and the time-range check are
upstream of the modelled input and always-valid here.) -/

inductive PipeResult (F T : Type)
  | expansionError (e : ExpandErr)
  | noTargets
  | normalizationError (e : NormErr)
  | validationError (e : VErr)
  | invalidAuditor (invalid : List String)
  | success (report : AggregatedReport F T)
deriving DecidableEq

/-- Stages from the empty-list check onward. -/
def pipelineAfterExpansion (provided : List PTarget) (auditorsValue : Option String)
    (userPrompt : String) (listServicesApi : Except String (List ServiceSummary))
    (backend : Nat → List PTarget → CliResult F PTarget) (evs : List ExtCall) :
    PipeResult F PTarget × List ExtCall :=
  if provided.length = 0 then (.noTargets, evs)
  else
    match normalize_targets provided with
    | .error e => (.normalizationError e, evs)
    | .ok normalized =>
      match validate_and_enrich_targets listServicesApi normalized with
      | (.error e, evs2) => (.validationError e, evs ++ evs2)
      | (.ok enriched, evs2) =>
        match parse_auditors auditorsValue userPrompt with
        | .error invalid => (.invalidAuditor invalid, evs ++ evs2)
        | .ok _ =>
          let batches := targetBatches enriched
          (.success (aggregate_batch_results (runBatches backend batches) batches.length),
           evs ++ evs2 ++ batches.map fun _ => ExtCall.auditBackend)

/-- The full pipeline. -/
def audit_services_pipeline (provided : List PTarget) (auditorsValue : Option String)
    (userPrompt : String) (listServicesApi : Except String (List ServiceSummary))
    (listSlosApi : Except String (List (List SloSummary)))
    (backend : Nat → List PTarget → CliResult F PTarget) :
    PipeResult F PTarget × List ExtCall :=
  if provided.any containsStar then
    match expand_wildcard_targets provided listServicesApi listSlosApi with
    | (.error e, evs) => (.expansionError e, evs)
    | (.ok expanded, evs) =>
      pipelineAfterExpansion expanded auditorsValue userPrompt listServicesApi backend evs
  else
    pipelineAfterExpansion provided auditorsValue userPrompt listServicesApi backend []

/-! ## `parse_timestamp` (`server.py`)

Python `datetime` values are modelled as UTC epoch seconds plus an awareness
flag.  `datetime.fromtimestamp(t, tz=utc)` succeeds exactly on the datetime
range (years 1..9999); past that it raises `ValueError` while the conversion
still fits the C time structures, `OSError` once the platform `gmtime` fails
(observed on CPython/Linux from `67768036191676800` on), and `OverflowError`
beyond the 64-bit `time_t` range — only `ValueError`/`TypeError` are caught
by `parse_timestamp`.  `fromisoformat` and `strptime` raise only `ValueError`
on bad input; the models below accept the zero-padded core forms
(`YYYY-MM-DD`/`T`/`HH:MM:SS`, optional `±HH:MM` offset for ISO) and map every
other string to `ValueError`, which `parse_timestamp` turns into the fallback
either way. -/

deriving instance DecidableEq for Except

inductive PyErr
  | valueError
  | overflowError
  | osError
deriving DecidableEq, Repr

/-- A Python `datetime`: its fields read as a UTC epoch, plus awareness. -/
structure PyDatetime where
  epochUtc : Int
  aware : Bool
deriving DecidableEq, Repr

def MIN_DATETIME_TS : Int := -62135596800
def MAX_DATETIME_TS : Int := 253402300799
def GMTIME_FAIL_TS : Int := 67768036191676800
def TIME_T_BOUND : Int := 9223372036854775808

/-- Modelled `datetime.fromtimestamp(t, tz=timezone.utc)` on integer input
(error zones as documented above; the negative zones mirror the positive
ones and are unreachable from digit strings). -/
def datetime_fromtimestamp_utc (t : Int) : Except PyErr Int :=
  if TIME_T_BOUND ≤ t ∨ t < -TIME_T_BOUND then .error .overflowError
  else if GMTIME_FAIL_TS ≤ t ∨ t ≤ -GMTIME_FAIL_TS then .error .osError
  else if t < MIN_DATETIME_TS ∨ MAX_DATETIME_TS < t then .error .valueError
  else .ok t

/-- `str.isdigit()` (ASCII digits). -/
def pyIsDigit (l : List Char) : Bool := l ≠ [] && l.all fun c => '0' ≤ c && c ≤ '9'

/-- Decimal value of a digit string. -/
def digitsToNat (l : List Char) : Nat :=
  l.foldl (fun acc c => acc * 10 + (c.toNat - '0'.toNat)) 0

def isLeapYear (y : Nat) : Bool := y % 4 = 0 ∧ (y % 100 ≠ 0 ∨ y % 400 = 0)

def daysInMonth (leap : Bool) (m : Nat) : Nat :=
  if m = 2 then (if leap then 29 else 28)
  else if m = 4 ∨ m = 6 ∨ m = 9 ∨ m = 11 then 30
  else 31

/-- Days in the months strictly before month `m`. -/
def daysBeforeMonth (leap : Bool) (m : Nat) : Nat :=
  (List.range (m - 1)).foldl (fun acc i => acc + daysInMonth leap (i + 1)) 0

/-- Proleptic-Gregorian civil date/time (UTC fields) to epoch seconds. -/
def civilToEpoch (y mo d h mi s : Nat) : Int :=
  let n := y - 1
  let days := n * 365 + n / 4 - n / 100 + n / 400
    + daysBeforeMonth (isLeapYear y) mo + (d - 1)
  (days : Int) * 86400 + (h : Int) * 3600 + (mi : Int) * 60 + (s : Int) - 62135596800

/-- Field validity enforced by the `datetime` constructor. -/
def validCivil (y mo d h mi s : Nat) : Bool :=
  1 ≤ y ∧ y ≤ 9999 ∧ 1 ≤ mo ∧ mo ≤ 12 ∧ 1 ≤ d ∧ d ≤ daysInMonth (isLeapYear y) mo
    ∧ h ≤ 23 ∧ mi ≤ 59 ∧ s ≤ 59

/-- Exactly `n` ASCII digits from the front of `l`, with the rest. -/
def takeDigits (n : Nat) (l : List Char) : Option (Nat × List Char) :=
  let pre := l.take n
  if pre.length = n ∧ pre.all (fun c => '0' ≤ c && c ≤ '9') then
    some (digitsToNat pre, l.drop n)
  else none

/-- Expect a literal character from the front of `l`. -/
def expectChar (c : Char) : List Char → Option (List Char)
  | [] => none
  | x :: rest => if x = c then some rest else none

/-- Parse the zero-padded core `YYYY-MM-DDTHH:MM:SS`, returning fields and
the remaining characters. -/
def parseIsoCore (l : List Char) :
    Option (Nat × Nat × Nat × Nat × Nat × Nat × List Char) := do
  let (y, l) ← takeDigits 4 l
  let l ← expectChar '-' l
  let (mo, l) ← takeDigits 2 l
  let l ← expectChar '-' l
  let (d, l) ← takeDigits 2 l
  let l ← expectChar 'T' l
  let (h, l) ← takeDigits 2 l
  let l ← expectChar ':' l
  let (mi, l) ← takeDigits 2 l
  let l ← expectChar ':' l
  let (s, l) ← takeDigits 2 l
  pure (y, mo, d, h, mi, s, l)

/-- Parse an optional trailing `+HH:MM`/`-HH:MM` offset (in seconds). -/
def parseIsoOffset (l : List Char) : Option (Option Int) :=
  match l with
  | [] => some none
  | c :: rest =>
    if c = '+' ∨ c = '-' then
      match takeDigits 2 rest with
      | none => none
      | some (oh, rest) =>
        match expectChar ':' rest with
        | none => none
        | some rest =>
          match takeDigits 2 rest with
          | none => none
          | some (om, rest) =>
            if rest = [] ∧ oh ≤ 23 ∧ om ≤ 59 then
              let secs : Int := (oh : Int) * 3600 + (om : Int) * 60
              some (some (if c = '-' then -secs else secs))
            else none
    else none

/-- Modelled `datetime.fromisoformat` (subset; all rejections `ValueError`). -/
def datetime_fromisoformat (s : String) : Except PyErr PyDatetime :=
  match parseIsoCore s.data with
  | none => .error .valueError
  | some (y, mo, d, h, mi, sec, rest) =>
    if validCivil y mo d h mi sec then
      match parseIsoOffset rest with
      | none => .error .valueError
      | some none => .ok ⟨civilToEpoch y mo d h mi sec, false⟩
      | some (some off) => .ok ⟨civilToEpoch y mo d h mi sec - off, true⟩
    else .error .valueError

/-- Modelled `datetime.strptime(s, '%Y-%m-%d %H:%M:%S').replace(tzinfo=utc)`
(zero-padded fields; all rejections `ValueError`). -/
def datetime_strptime_utc (s : String) : Except PyErr PyDatetime :=
  match parseIsoCore (s.data.map fun c => if c = ' ' then 'T' else c) with
  | none => .error .valueError
  | some (y, mo, d, h, mi, sec, rest) =>
    if rest = [] ∧ validCivil y mo d h mi sec then
      .ok ⟨civilToEpoch y mo d h mi sec, true⟩
    else .error .valueError

/-- `timestamp_str.replace('Z', '+00:00')`. -/
def replaceZ (l : List Char) : List Char :=
  l.flatMap fun c => if c = 'Z' then "+00:00".data else [c]

/-- `parse_timestamp(timestamp_str, default_hours)`, with the current time
passed in as `nowEpoch`.  An uncaught `OSError`/`OverflowError` from
`fromtimestamp` surfaces as `.error`; every caught failure falls back to
`now - default_hours` (an aware UTC datetime). -/
def parse_timestamp (timestamp_str : String) (nowEpoch : Int)
    (default_hours : Int := 24) : Except PyErr PyDatetime :=
  let fallback : PyDatetime := ⟨nowEpoch - default_hours * 3600, true⟩
  let l := timestamp_str.data
  if pyIsDigit l then
    match datetime_fromtimestamp_utc ((digitsToNat l : Nat) : Int) with
    | .ok t => .ok ⟨t, true⟩
    | .error .valueError => .ok fallback
    | .error e => .error e
  else if l.contains 'T' then
    match datetime_fromisoformat (String.mk (replaceZ l)) with
    | .ok dt => .ok dt
    | .error _ => .ok fallback
  else
    match datetime_strptime_utc timestamp_str with
    | .ok dt => .ok dt
    | .error _ => .ok fallback

/-! ## Concrete scenario data

Backends and catalogs used to instantiate the end-to-end scenarios of the
specification (scenario A: a catalog of 3 valid services and one `"Unknown"`
placeholder; scenario B: 12 targets with batch 2 failing). -/

/-- Scenario-B backend that fails batch 2 and echoes the request's
`AuditTargets` back in every successful response. -/
def backendEchoFail2 : Nat → List Nat → CliResult Unit Nat :=
  fun idx b => if idx = 2 then .exitNonzero 254 "err" else .stdoutJson [] b

/-- Scenario-B backend that fails batch 2 and answers successful batches with
a bare findings payload that does not echo `AuditTargets` (the response shape
documented for the audit backend). -/
def backendNoEchoFail2 : Nat → List Nat → CliResult Unit Nat :=
  fun idx _ => if idx = 2 then .exitNonzero 254 "err" else .stdoutJson [] []

/-- Scenario-A catalog: 3 valid services and one `"Unknown"` placeholder. -/
def scenarioACatalog : List ServiceSummary :=
  [⟨⟨"svc-a", "Service", "eks:a"⟩⟩, ⟨⟨"svc-b", "Service", "eks:b"⟩⟩,
   ⟨⟨"svc-c", "Service", "eks:c"⟩⟩, ⟨⟨"Unknown", "Service", "generic:x"⟩⟩]

/-- A trivially succeeding pipeline backend. -/
def trivialBackend : Nat → List PTarget → CliResult Nat PTarget :=
  fun _ b => .stdoutJson [] b

/-! # Theorems -/

/-! ## Batching lemmas -/

theorem chunksGo_nil (fuel : Nat) : chunksGo fuel ([] : List α) = [] := by
  cases fuel <;> rfl

theorem chunksGo_cons (fuel : Nat) (l : List α) (h : l ≠ []) :
    chunksGo (fuel + 1) l = l.take 5 :: chunksGo fuel (l.drop 5) := by
  cases l with
  | nil => exact absurd rfl h
  | cons a r => rfl

theorem chunksGo_flatten (fuel : Nat) :
    ∀ l : List α, l.length ≤ fuel → (chunksGo fuel l).flatten = l := by
  induction fuel with
  | zero =>
    intro l hl
    have : l = [] := List.length_eq_zero.mp (Nat.le_zero.mp hl)
    subst this; rfl
  | succ f ih =>
    intro l hl
    cases l with
    | nil => rfl
    | cons a r =>
      rw [chunksGo_cons f (a :: r) (by simp), List.flatten_cons,
        ih ((a :: r).drop 5)
          (by simp only [List.length_drop, List.length_cons] at hl ⊢; omega),
        List.take_append_drop]

theorem chunksGo_length (fuel : Nat) :
    ∀ l : List α, l.length ≤ fuel → (chunksGo fuel l).length = (l.length + 4) / 5 := by
  induction fuel with
  | zero =>
    intro l hl
    have : l = [] := List.length_eq_zero.mp (Nat.le_zero.mp hl)
    subst this
    rw [chunksGo_nil]
    simp
  | succ f ih =>
    intro l hl
    cases l with
    | nil =>
      rw [chunksGo_nil]
      simp
    | cons a r =>
      rw [chunksGo_cons f (a :: r) (by simp), List.length_cons,
        ih ((a :: r).drop 5)
          (by simp only [List.length_drop, List.length_cons] at hl ⊢; omega),
        List.length_drop]
      have : (a :: r).length = r.length + 1 := rfl
      rw [this]
      omega

theorem runBatchesGo_length (backend : Nat → List τ → CliResult F T) :
    ∀ (batches : List (List τ)) (idx : Nat),
      (runBatchesGo backend idx batches).length = batches.length := by
  intro batches
  induction batches with
  | nil => intro idx; rfl
  | cons b bs ih => intro idx; simp [runBatchesGo, ih]

/-- C6: for N ≥ 1 validated targets the executor builds exactly ⌈N/5⌉
batches, their concatenation in batch order is the input list (sizes sum to
N, order preserved), and the sequential loop makes one backend invocation
per batch. -/
theorem C6_batch_partition (backend : Nat → List τ → CliResult F T)
    (l : List τ) (h : 1 ≤ l.length) :
    (targetBatches l).length = (l.length + 4) / 5
    ∧ (targetBatches l).flatten = l
    ∧ (runBatches backend (targetBatches l)).length = (targetBatches l).length := by
  refine ⟨?_, ?_, runBatchesGo_length backend (targetBatches l) 1⟩
  · unfold targetBatches
    split
    · exact chunksGo_length l.length l le_rfl
    · simp only [List.length_cons, List.length_nil]
      omega
  · unfold targetBatches
    split
    · exact chunksGo_flatten l.length l le_rfl
    · simp

theorem C6_batch_partition_witness :
    1 ≤ (List.range 12).length
    ∧ ((targetBatches (List.range 12)).length = ((List.range 12).length + 4) / 5
      ∧ (targetBatches (List.range 12)).flatten = List.range 12
      ∧ (runBatches backendEchoFail2 (targetBatches (List.range 12))).length
          = (targetBatches (List.range 12)).length) :=
  ⟨by decide, C6_batch_partition backendEchoFail2 (List.range 12) (by decide)⟩

/-! ## Aggregation (claim C1) -/

/-- Counterexample to C1 as stated: 12 targets in batches of 5, 5, 2 with
batch 2 failing and the other two succeeding, but with backend responses that
carry only a findings payload (no `AuditTargets` echo, the documented
response shape): the report has `SuccessfulBatches = 2` and
`FailedBatches = 1`, yet `TotalTargetsProcessed = 0`, not 7 — the aggregation
sums the length of the `AuditTargets` array of each successful *response*,
not the input target counts of the succeeded batches. -/
theorem C1_counterexample :
    (execute_audit_batches backendNoEchoFail2 (List.range 12)).summary.successfulBatches = 2
    ∧ (execute_audit_batches backendNoEchoFail2 (List.range 12)).summary.failedBatches = 1
    ∧ (execute_audit_batches backendNoEchoFail2 (List.range 12)).summary.totalTargetsProcessed = 0
    ∧ (execute_audit_batches backendNoEchoFail2 (List.range 12)).summary.totalTargetsProcessed ≠ 7 := by
  decide

theorem targetBatches_length12 (l : List α) (h : l.length = 12) :
    targetBatches l = [l.take 5, (l.drop 5).take 5, (l.drop 5).drop 5] := by
  have h0 : l ≠ [] := by intro hnil; rw [hnil] at h; simp at h
  have h5 : l.drop 5 ≠ [] := by
    intro hnil
    have := congrArg List.length hnil
    simp [h] at this
  have h10 : (l.drop 5).drop 5 ≠ [] := by
    intro hnil
    have := congrArg List.length hnil
    simp [h] at this
  unfold targetBatches
  rw [if_pos (by omega)]
  unfold chunkBatches
  rw [h]
  rw [show (12 : Nat) = 11 + 1 from rfl, chunksGo_cons _ _ h0]
  rw [show (11 : Nat) = 10 + 1 from rfl, chunksGo_cons _ _ h5]
  rw [show (10 : Nat) = 9 + 1 from rfl, chunksGo_cons _ _ h10]
  have h2 : ((l.drop 5).drop 5).length = 2 := by simp [h]
  have hdrop : ((l.drop 5).drop 5).drop 5 = [] := by
    apply List.length_eq_zero.mp; simp [h]
  have htake : ((l.drop 5).drop 5).take 5 = (l.drop 5).drop 5 :=
    List.take_of_length_le (by omega)
  rw [hdrop, chunksGo_nil, htake]

/-- C1 (amended): `SuccessfulBatches` and `FailedBatches` are as claimed, and
`TotalTargetsProcessed` is the summed length of the `AuditTargets` arrays of
the succeeded batches' responses — equal to 7 exactly when each succeeded
batch's response echoes its input targets (5 and 2 here). -/
theorem C1_aggregation_amended (targets : List Nat) (h : targets.length = 12) :
    (execute_audit_batches backendEchoFail2 targets).summary.totalBatches = 3
    ∧ (execute_audit_batches backendEchoFail2 targets).summary.successfulBatches = 2
    ∧ (execute_audit_batches backendEchoFail2 targets).summary.failedBatches = 1
    ∧ (execute_audit_batches backendEchoFail2 targets).summary.totalTargetsProcessed = 7
    ∧ (execute_audit_batches backendEchoFail2 targets).batchErrors
        = some [⟨2, "CLI exit code: 254", 5⟩] := by
  have hb := targetBatches_length12 targets h
  have l1 : (targets.take 5).length = 5 := by simp [h]
  have l2 : ((targets.drop 5).take 5).length = 5 := by simp [h]
  have l3 : ((targets.drop 5).drop 5).length = 2 := by simp [h]
  unfold execute_audit_batches
  rw [hb]
  unfold runBatches runBatchesGo runBatchesGo runBatchesGo runBatchesGo
  unfold backendEchoFail2
  simp only [if_pos, if_neg, reduceIte]
  unfold outcomeOf
  unfold aggregate_batch_results
  simp [isFailedOutcome, l1, l2, l3, h]
  rfl

theorem C1_aggregation_amended_witness :
    (List.range 12).length = 12
    ∧ ((execute_audit_batches backendEchoFail2 (List.range 12)).summary.totalBatches = 3
      ∧ (execute_audit_batches backendEchoFail2 (List.range 12)).summary.successfulBatches = 2
      ∧ (execute_audit_batches backendEchoFail2 (List.range 12)).summary.failedBatches = 1
      ∧ (execute_audit_batches backendEchoFail2 (List.range 12)).summary.totalTargetsProcessed = 7
      ∧ (execute_audit_batches backendEchoFail2 (List.range 12)).batchErrors
          = some [⟨2, "CLI exit code: 254", 5⟩]) :=
  ⟨by decide, C1_aggregation_amended (List.range 12) (by decide)⟩

/-! ## Pattern expansion (claims C2, C4) -/

theorem filterMap_guard (p : α → Bool) (f : α → β) :
    ∀ l : List α,
      (l.filterMap fun a => if p a then some (f a) else none) = (l.filter p).map f := by
  intro l
  induction l with
  | nil => rfl
  | cons a as ih =>
    by_cases h : p a <;> simp [List.filterMap_cons, List.filter_cons, h, ih]

theorem expandServicePatternUtils_star (services : List ServiceSummary) :
    expandServicePatternUtils "*" services
      = (services.filter isRealServiceEntry).map svcTargetOfSummary := by
  unfold expandServicePatternUtils
  have he : (fun s : ServiceSummary =>
      if isRealServiceEntry s then
        if searchTermMatches (patternSearchTerm "*") s.keyAttributes.name then
          some (svcTargetOfSummary s)
        else none
      else none)
      = fun s : ServiceSummary =>
        if isRealServiceEntry s then some (svcTargetOfSummary s) else none := by
    funext s
    simp [patternSearchTerm, searchTermMatches]
  rw [he, filterMap_guard]

/-- C2: expanding a bare `*` service target (empty search term) against an
available catalog yields exactly one concrete service target per catalog
entry that survives the placeholder filter (name non-empty, name not
`"Unknown"`, type `"Service"`); on the scenario-A catalog of 3 valid services
plus one `"Unknown"` placeholder this is exactly 3 targets. -/
theorem C2_bare_star_expansion :
    (∀ catalog : List ServiceSummary,
      expand_service_wildcard_patterns [.svc ⟨some "*", none⟩] (.ok catalog)
        = .ok ((catalog.filter isRealServiceEntry).map svcTargetOfSummary))
    ∧ expand_service_wildcard_patterns [.svc ⟨some "*", none⟩] (.ok scenarioACatalog)
        = .ok [.svc ⟨some "svc-a", some "eks:a"⟩, .svc ⟨some "svc-b", some "eks:b"⟩,
               .svc ⟨some "svc-c", some "eks:c"⟩] := by
  constructor
  · intro catalog
    have hc : classifyServiceTargetsUtils [PTarget.svc ⟨some "*", none⟩]
        = ⟨[], [(PTarget.svc ⟨some "*", none⟩, "*")], []⟩ := rfl
    unfold expand_service_wildcard_patterns
    rw [hc]
    simp [expandServicePatternUtils_star]
  · decide

theorem fetchSlosGo_spec :
    ∀ (fuel i : Nat) (pages : List (List SloSummary)), pages.length - i < fuel →
      fetchSlosGo pages fuel i = (pages.drop i).flatten := by
  intro fuel
  induction fuel with
  | zero => intro i pages h; exact absurd h (Nat.not_lt_zero _)
  | succ f ih =>
    intro i pages h
    show (if i + 1 < pages.length then
        pages.getD i [] ++ fetchSlosGo pages f (i + 1) else pages.getD i [])
      = (pages.drop i).flatten
    by_cases hlt : i + 1 < pages.length
    · rw [if_pos hlt, ih (i + 1) pages (by omega),
        List.drop_eq_getElem_cons (by omega : i < pages.length), List.flatten_cons,
        List.getD_eq_getElem pages [] (by omega)]
    · rw [if_neg hlt]
      by_cases hi : i < pages.length
      · rw [List.getD_eq_getElem pages [] hi,
          List.drop_eq_getElem_cons hi, List.flatten_cons,
          List.drop_eq_nil_of_le (by omega)]
        simp
      · rw [List.getD_eq_default pages [] (by omega),
          List.drop_eq_nil_of_le (by omega)]
        rfl

theorem expandSloPatternServer_star (slos : List SloSummary) :
    expandSloPatternServer "*" slos = slos.map fun s => sloTargetOfName s.name := by
  induction slos with
  | nil => rfl
  | cons s ss ih =>
    simp only [expandSloPatternServer, List.filterMap_cons] at ih ⊢
    rw [if_pos (by simp [patternSearchTerm, searchTermMatches])]
    simp only [List.map_cons]
    rw [ih]

/-- C4: whenever SLO patterns or fuzzy candidates are present the expander
follows the `NextToken` continuation until it is absent and merges all pages
(`fetchAllSlos pages = pages.flatten`), and a bare `*` SLO pattern therefore
produces one target per SLO of *every* page, not just the first. -/
theorem C4_slo_pagination :
    (∀ pages : List (List SloSummary), fetchAllSlos pages = pages.flatten)
    ∧ (∀ pages : List (List SloSummary),
        expand_wildcard_targets [.sloNested (some "*") none] (.ok []) (.ok pages)
          = (.ok (pages.flatten.map fun s => sloTargetOfName s.name), [.listSlos])) := by
  have hfetch : ∀ pages : List (List SloSummary), fetchAllSlos pages = pages.flatten := by
    intro pages
    unfold fetchAllSlos
    rw [fetchSlosGo_spec (pages.length + 1) 0 pages (by omega)]
    rfl
  refine ⟨hfetch, ?_⟩
  intro pages
  have hc : classifyUnified [PTarget.sloNested (some "*") none]
      = ⟨[], [], [], [(PTarget.sloNested (some "*") none, "*")], []⟩ := rfl
  unfold expand_wildcard_targets
  rw [hc]
  simp [hfetch, expandSloPatternServer_star]

/-! ## Expansion failure handling (claim C3) -/

theorem classifyUnifiedStep_svc (acc : UnifiedClassify) (e : SvcEntity) :
    classifyUnifiedStep acc (.svc e)
      = (if hasStar (e.name.getD "") then
          { acc with servicePatterns := acc.servicePatterns ++ [(.svc e, e.name.getD "")] }
        else { acc with serviceFuzzy := acc.serviceFuzzy ++ [(.svc e, e.name.getD "")] }) :=
  rfl

theorem classifyUnifiedStep_sloNested (acc : UnifiedClassify) (n a : Option String) :
    classifyUnifiedStep acc (.sloNested n a)
      = (if hasStar (n.getD "") then
          { acc with sloPatterns := acc.sloPatterns ++ [(.sloNested n a, n.getD "")] }
        else { acc with sloFuzzy := acc.sloFuzzy ++ [(.sloNested n a, n.getD "")] }) :=
  rfl

theorem classifyUnifiedStep_svcOp (acc : UnifiedClassify) (n op mt : Option String) :
    classifyUnifiedStep acc (.svcOp n op mt)
      = (if hasStar (n.getD "") then
          { acc with servicePatterns := acc.servicePatterns ++ [(.svcOp n op mt, n.getD "")] }
        else { acc with passThrough := acc.passThrough ++ [.svcOp n op mt] }) :=
  rfl

theorem mem_servicePatterns_step (acc : UnifiedClassify) (t : PTarget)
    (p : PTarget × String) (hp : p ∈ acc.servicePatterns) :
    p ∈ (classifyUnifiedStep acc t).servicePatterns := by
  cases t with
  | svc e =>
    rw [classifyUnifiedStep_svc]
    split
    · exact List.mem_append_left _ hp
    · exact hp
  | sloNested n a =>
    rw [classifyUnifiedStep_sloNested]
    split
    · exact hp
    · exact hp
  | svcOp n op mt =>
    rw [classifyUnifiedStep_svcOp]
    split
    · exact List.mem_append_left _ hp
    · exact hp
  | otherType tag => exact hp
  | nonDict tag => exact hp

theorem servicePatterns_foldl_mono :
    ∀ (ts : List PTarget) (acc : UnifiedClassify) (p : PTarget × String),
      p ∈ acc.servicePatterns → p ∈ (ts.foldl classifyUnifiedStep acc).servicePatterns := by
  intro ts
  induction ts with
  | nil => intro acc p hp; exact hp
  | cons t ts ih =>
    intro acc p hp
    exact ih _ p (mem_servicePatterns_step acc t p hp)

theorem star_svc_mem_servicePatterns :
    ∀ (ts : List PTarget) (acc : UnifiedClassify) (e : SvcEntity),
      PTarget.svc e ∈ ts → hasStar (e.name.getD "") →
      (PTarget.svc e, e.name.getD "") ∈ (ts.foldl classifyUnifiedStep acc).servicePatterns := by
  intro ts
  induction ts with
  | nil => intro acc e hmem; exact absurd hmem (List.not_mem_nil _)
  | cons t ts ih =>
    intro acc e hmem hstar
    rw [List.foldl_cons]
    rcases List.mem_cons.mp hmem with heq | htail
    · subst heq
      apply servicePatterns_foldl_mono
      rw [classifyUnifiedStep_svc, if_pos hstar]
      simp
    · exact ih _ e htail hstar

/-- Counterexample to C3 as stated: an input list whose only entry is an SLO
wildcard target, with the SLO catalog fetch failing — the unified expander
does not raise; it returns the original target, whose identifying name still
contains `'*'`, to be passed on to validation. -/
theorem C3_counterexample :
    expand_wildcard_targets [.sloNested (some "*") none] (.ok [])
        (.error "catalog unreachable")
      = (.ok [.sloNested (some "*") none], [.listSlos])
    ∧ containsStar (.sloNested (some "*") none) = true := by
  decide

/-- C3 (amended): the fatal behavior holds for the *service* side only — if
service patterns or fuzzy candidates are pending and the service catalog
fetch fails, the expander raises a `ValueError` naming every pending pattern
and fuzzy name (in particular every service target whose name contains `'*'`
is named); an SLO catalog failure, by contrast, passes the original targets
through (see the counterexample). -/
theorem C3_service_expansion_failure_amended (targets : List PTarget)
    (apiErr : String) (sloApi : Except String (List (List SloSummary)))
    (h : ¬((classifyUnified targets).servicePatterns = []
          ∧ (classifyUnified targets).serviceFuzzy = [])) :
    expand_wildcard_targets targets (.error apiErr) sloApi
      = (.error (.serviceExpandFailed
          ((classifyUnified targets).servicePatterns.map Prod.snd
            ++ (classifyUnified targets).serviceFuzzy.map Prod.snd) apiErr),
         [.listServices])
    ∧ ∀ e : SvcEntity, PTarget.svc e ∈ targets → hasStar (e.name.getD "") →
        (e.name.getD "") ∈ ((classifyUnified targets).servicePatterns.map Prod.snd
          ++ (classifyUnified targets).serviceFuzzy.map Prod.snd) := by
  constructor
  · unfold expand_wildcard_targets
    simp only [if_neg h]
  · intro e hmem hstar
    apply List.mem_append_left
    exact List.mem_map.mpr
      ⟨(PTarget.svc e, e.name.getD ""),
       star_svc_mem_servicePatterns targets _ e hmem hstar, rfl⟩

theorem C3_service_expansion_failure_amended_witness :
    ¬((classifyUnified [PTarget.svc ⟨some "*pay*", none⟩]).servicePatterns = []
      ∧ (classifyUnified [PTarget.svc ⟨some "*pay*", none⟩]).serviceFuzzy = [])
    ∧ (expand_wildcard_targets [PTarget.svc ⟨some "*pay*", none⟩] (.error "boom") (.ok [])
        = (.error (.serviceExpandFailed
            ((classifyUnified [PTarget.svc ⟨some "*pay*", none⟩]).servicePatterns.map Prod.snd
              ++ (classifyUnified [PTarget.svc ⟨some "*pay*", none⟩]).serviceFuzzy.map Prod.snd)
            "boom"),
           [.listServices])
      ∧ ∀ e : SvcEntity, PTarget.svc e ∈ [PTarget.svc ⟨some "*pay*", none⟩] →
          hasStar (e.name.getD "") →
          (e.name.getD "")
            ∈ ((classifyUnified [PTarget.svc ⟨some "*pay*", none⟩]).servicePatterns.map Prod.snd
              ++ (classifyUnified [PTarget.svc ⟨some "*pay*", none⟩]).serviceFuzzy.map Prod.snd)) :=
  ⟨by decide,
   C3_service_expansion_failure_amended [PTarget.svc ⟨some "*pay*", none⟩] "boom" (.ok [])
     (by decide)⟩

/-! ## Fuzzy matching (claim C5) -/

theorem mem_insertByScoreDesc (key : α → Nat) (x : α) (a : α) :
    ∀ l : List α, (a ∈ insertByScoreDesc key x l ↔ a = x ∨ a ∈ l) := by
  intro l
  induction l with
  | nil => simp [insertByScoreDesc]
  | cons y ys ih =>
    simp only [insertByScoreDesc]
    split
    · simp [List.mem_cons]
    · simp only [List.mem_cons, ih]
      tauto

theorem mem_sortByScoreDesc (key : α → Nat) (a : α) :
    ∀ l : List α, (a ∈ sortByScoreDesc key l ↔ a ∈ l) := by
  intro l
  induction l with
  | nil => simp [sortByScoreDesc]
  | cons x xs ih =>
    simp only [sortByScoreDesc, mem_insertByScoreDesc, ih, List.mem_cons]

theorem pairwise_insertByScoreDesc (key : α → Nat) (x : α) :
    ∀ l : List α, l.Pairwise (fun a b => key b ≤ key a) →
      (insertByScoreDesc key x l).Pairwise (fun a b => key b ≤ key a) := by
  intro l
  induction l with
  | nil => simp [insertByScoreDesc]
  | cons y ys ih =>
    intro h
    rw [List.pairwise_cons] at h
    simp only [insertByScoreDesc]
    split
    · rename_i hxy
      rw [List.pairwise_cons]
      refine ⟨?_, List.pairwise_cons.mpr h⟩
      intro b hb
      rcases List.mem_cons.mp hb with rfl | hb
      · exact hxy
      · exact le_trans (h.1 b hb) hxy
    · rename_i hxy
      rw [List.pairwise_cons]
      refine ⟨?_, ih h.2⟩
      intro b hb
      rcases (mem_insertByScoreDesc key x b ys).mp hb with rfl | hb
      · exact le_of_lt (lt_of_not_ge hxy)
      · exact h.1 b hb

theorem pairwise_sortByScoreDesc (key : α → Nat) :
    ∀ l : List α, (sortByScoreDesc key l).Pairwise (fun a b => key b ≤ key a) := by
  intro l
  induction l with
  | nil => simp [sortByScoreDesc]
  | cons x xs ih => exact pairwise_insertByScoreDesc key x _ ih

theorem mem_serviceFuzzyCandidates (inexact : String) (services : List ServiceSummary)
    (m : ScoredSvc) (hm : m ∈ serviceFuzzyCandidates inexact services) :
    30 ≤ m.score ∧ m.score = calculate_name_similarity inexact m.name "service" := by
  unfold serviceFuzzyCandidates at hm
  rcases List.mem_filterMap.mp hm with ⟨s, _, hEq⟩
  by_cases h1 : s.keyAttributes.name = ""
  · rw [if_pos h1] at hEq
    cases hEq
  · rw [if_neg h1] at hEq
    by_cases h2 : 30 ≤ calculate_name_similarity inexact s.keyAttributes.name "service"
    · rw [if_pos h2] at hEq
      cases hEq
      exact ⟨h2, rfl⟩
    · rw [if_neg h2] at hEq
      cases hEq

/-- C5: fuzzy expansion keeps only candidates scoring at least 30 (with the
score really computed by the scorer on the candidate's name); the kept list
is sorted by descending score; an empty candidate list passes the original
target through unchanged; and when candidates exist, the head of the sorted
list is a best-scoring candidate — exactly that one target is produced if it
scores at least 85, and otherwise the top 3 (in descending score order) are
produced. -/
theorem C5_fuzzy_selection (inexact : String) (services : List ServiceSummary)
    (orig : PTarget) :
    (∀ m ∈ serviceBestMatches inexact services,
        30 ≤ m.score ∧ m.score = calculate_name_similarity inexact m.name "service")
    ∧ (serviceBestMatches inexact services).Pairwise (fun a b => b.score ≤ a.score)
    ∧ (serviceBestMatches inexact services = [] →
        serviceFuzzyExpand orig inexact services = [orig])
    ∧ ∀ top rest, serviceBestMatches inexact services = top :: rest →
        (∀ m ∈ serviceBestMatches inexact services, m.score ≤ top.score)
        ∧ (85 ≤ top.score →
            serviceFuzzyExpand orig inexact services = [svcTargetOfMatch top])
        ∧ (top.score < 85 →
            serviceFuzzyExpand orig inexact services
              = ((top :: rest).take 3).map svcTargetOfMatch) := by
  have hsorted : (serviceBestMatches inexact services).Pairwise
      (fun a b => b.score ≤ a.score) :=
    pairwise_sortByScoreDesc (fun m => m.score) (serviceFuzzyCandidates inexact services)
  refine ⟨?_, hsorted, ?_, ?_⟩
  · intro m hm
    unfold serviceBestMatches at hm
    exact mem_serviceFuzzyCandidates inexact services m
      ((mem_sortByScoreDesc (fun m => m.score) m
        (serviceFuzzyCandidates inexact services)).mp hm)
  · intro h
    unfold serviceFuzzyExpand
    rw [h]
  · intro top rest h
    refine ⟨?_, ?_, ?_⟩
    · intro m hm
      rw [h] at hm hsorted
      rcases List.mem_cons.mp hm with rfl | hm
      · exact le_rfl
      · exact (List.pairwise_cons.mp hsorted).1 m hm
    · intro h85
      unfold serviceFuzzyExpand
      rw [h]
      show (if 85 ≤ top.score then [top] else (top :: rest).take 3).map svcTargetOfMatch
        = [svcTargetOfMatch top]
      rw [if_pos h85]
      rfl
    · intro h85
      unfold serviceFuzzyExpand
      rw [h]
      show (if 85 ≤ top.score then [top] else (top :: rest).take 3).map svcTargetOfMatch
        = ((top :: rest).take 3).map svcTargetOfMatch
      rw [if_neg (by omega)]

theorem C5_fuzzy_selection_witness :
    serviceBestMatches "orders-service"
        [⟨⟨"orders-service", "Service", "e1"⟩⟩, ⟨⟨"billing-api", "Service", "e2"⟩⟩]
      = [⟨"orders-service", "e1", 100⟩]
    ∧ serviceFuzzyExpand (.svc ⟨some "orders-service", none⟩) "orders-service"
        [⟨⟨"orders-service", "Service", "e1"⟩⟩, ⟨⟨"billing-api", "Service", "e2"⟩⟩]
      = [svcTargetOfMatch ⟨"orders-service", "e1", 100⟩] :=
  ⟨by decide,
   ((C5_fuzzy_selection "orders-service"
        [⟨⟨"orders-service", "Service", "e1"⟩⟩, ⟨⟨"billing-api", "Service", "e2"⟩⟩]
        (.svc ⟨some "orders-service", none⟩)).2.2.2
      ⟨"orders-service", "e1", 100⟩ [] (by decide)).2.1 (by decide)⟩

/-! ## Validation and enrichment (claim C8) -/

theorem validateTarget_svc (api : Except String (List ServiceSummary)) (idx : Nat)
    (e : SvcEntity) :
    validateTarget api idx (.svc e)
      = (if hasStar (e.name.getD "") then
          (.error (.wildcardInValidation idx (e.name.getD "")), [])
        else if ¬ optTruthy e.environment ∧ e.name.getD "" ≠ "" then
          match api with
          | .error m => (.error (.apiFailure idx m), [.listServices])
          | .ok services =>
            match findServiceByName (e.name.getD "") services with
            | some s =>
              if s.keyAttributes.environment ≠ "" then
                (.ok (.svc ⟨e.name, some s.keyAttributes.environment⟩), [.listServices])
              else (.error (.svcNoEnvironment idx (e.name.getD "")), [.listServices])
            | none => (.error (.svcNotFound idx (e.name.getD "")), [.listServices])
        else if ¬ optTruthy e.environment then (.error (.envRequired idx), [])
        else (.ok (.svc e), [])) :=
  rfl

theorem validateTarget_sloNested (api : Except String (List ServiceSummary)) (idx : Nat)
    (n a : Option String) :
    validateTarget api idx (.sloNested n a)
      = (if n ≠ none ∨ a ≠ none then (.ok (.sloNested n a), [])
        else (.error (.sloMissingId idx), [])) :=
  rfl

theorem validateTarget_svc_lookup (services : List ServiceSummary) (idx : Nat)
    (e : SvcEntity) (h1 : ¬ hasStar (e.name.getD ""))
    (h2 : ¬ optTruthy e.environment) (h3 : e.name.getD "" ≠ "") :
    validateTarget (.ok services) idx (.svc e)
      = (match findServiceByName (e.name.getD "") services with
        | some s =>
          if s.keyAttributes.environment ≠ "" then
            (.ok (.svc ⟨e.name, some s.keyAttributes.environment⟩), [.listServices])
          else (.error (.svcNoEnvironment idx (e.name.getD "")), [.listServices])
        | none => (.error (.svcNotFound idx (e.name.getD "")), [.listServices])) := by
  rw [validateTarget_svc, if_neg h1, if_pos ⟨h2, h3⟩]

theorem validateTarget_ok_svc (api : Except String (List ServiceSummary)) (idx : Nat)
    (t : PTarget) (e : SvcEntity) (evs : List ExtCall)
    (h : validateTarget api idx t = (.ok (.svc e), evs)) :
    optTruthy e.environment = true := by
  cases t with
  | svc e0 =>
    rw [validateTarget_svc] at h
    split at h
    · simp at h
    · split at h
      · split at h
        · simp at h
        · split at h
          · split at h
            · rename_i henvne
              simp only [Prod.mk.injEq, Except.ok.injEq, PTarget.svc.injEq] at h
              rw [← h.1]
              simpa [optTruthy] using henvne
            · simp at h
          · simp at h
      · split at h
        · simp at h
        · rename_i hc3
          simp only [Prod.mk.injEq, Except.ok.injEq, PTarget.svc.injEq] at h
          rw [← h.1]
          exact not_not.mp hc3
  | sloNested n a =>
    rw [validateTarget_sloNested] at h
    split at h <;> simp at h
  | svcOp n op mt =>
    have h' : ((.ok (.svcOp n op mt), []) : Except VErr PTarget × List ExtCall)
        = (.ok (.svc e), evs) := h
    simp at h'
  | otherType tag =>
    have h' : ((.ok (.otherType tag), []) : Except VErr PTarget × List ExtCall)
        = (.ok (.svc e), evs) := h
    simp at h'
  | nonDict tag =>
    have h' : ((.ok (.nonDict tag), []) : Except VErr PTarget × List ExtCall)
        = (.ok (.svc e), evs) := h
    simp at h'

theorem validate_go_env (api : Except String (List ServiceSummary)) :
    ∀ (ts : List PTarget) (idx : Nat) (out : List PTarget) (evs : List ExtCall),
      validate_and_enrich_targets_go api idx ts = (.ok out, evs) →
      ∀ e : SvcEntity, PTarget.svc e ∈ out → optTruthy e.environment = true := by
  intro ts
  induction ts with
  | nil =>
    intro idx out evs h e hmem
    unfold validate_and_enrich_targets_go at h
    simp only [Prod.mk.injEq, Except.ok.injEq] at h
    rw [← h.1] at hmem
    exact absurd hmem (List.not_mem_nil _)
  | cons t ts ih =>
    intro idx out evs h e hmem
    unfold validate_and_enrich_targets_go at h
    split at h
    · simp at h
    · rename_i t' evs1 heq
      split at h
      · simp at h
      · rename_i ts' evs2 heq2
        simp only [Prod.mk.injEq, Except.ok.injEq] at h
        rw [← h.1] at hmem
        rcases List.mem_cons.mp hmem with hhd | htl
        · exact validateTarget_ok_svc api idx t e evs1 (by rw [heq, hhd])
        · exact ih (idx + 1) ts' evs2 heq2 e htl

/-- C8: whenever validation/enrichment succeeds, every `Service` target in
the returned list has a non-empty `Environment`; a service target lacking an
environment but carrying a name is enriched from the exact-name catalog
lookup, and when the service is not found, or is found without an
environment, the validator fails with a positional error instead of
returning the target. -/
theorem C8_enricher_environment (api : Except String (List ServiceSummary)) :
    (∀ (ts out : List PTarget) (evs : List ExtCall),
        validate_and_enrich_targets api ts = (.ok out, evs) →
        ∀ e : SvcEntity, PTarget.svc e ∈ out → optTruthy e.environment = true)
    ∧ (∀ (idx : Nat) (e : SvcEntity) (services : List ServiceSummary)
        (s : ServiceSummary),
        api = .ok services →
        ¬ hasStar (e.name.getD "") → ¬ optTruthy e.environment →
        e.name.getD "" ≠ "" →
        findServiceByName (e.name.getD "") services = some s →
        s.keyAttributes.environment ≠ "" →
        validateTarget api idx (.svc e)
          = (.ok (.svc ⟨e.name, some s.keyAttributes.environment⟩), [.listServices]))
    ∧ (∀ (idx : Nat) (e : SvcEntity) (services : List ServiceSummary)
        (s : ServiceSummary),
        api = .ok services →
        ¬ hasStar (e.name.getD "") → ¬ optTruthy e.environment →
        e.name.getD "" ≠ "" →
        findServiceByName (e.name.getD "") services = some s →
        s.keyAttributes.environment = "" →
        validateTarget api idx (.svc e)
          = (.error (.svcNoEnvironment idx (e.name.getD "")), [.listServices]))
    ∧ (∀ (idx : Nat) (e : SvcEntity) (services : List ServiceSummary),
        api = .ok services →
        ¬ hasStar (e.name.getD "") → ¬ optTruthy e.environment →
        e.name.getD "" ≠ "" →
        findServiceByName (e.name.getD "") services = none →
        validateTarget api idx (.svc e)
          = (.error (.svcNotFound idx (e.name.getD "")), [.listServices])) := by
  refine ⟨?_, ?_, ?_, ?_⟩
  · intro ts out evs h
    exact validate_go_env api ts 1 out evs h
  · intro idx e services s hapi hstar henv hname hfind hsenv
    subst hapi
    rw [validateTarget_svc_lookup services idx e hstar henv hname, hfind]
    simp [hsenv]
  · intro idx e services s hapi hstar henv hname hfind hsenv
    subst hapi
    rw [validateTarget_svc_lookup services idx e hstar henv hname, hfind]
    simp [hsenv]
  · intro idx e services hapi hstar henv hname hfind
    subst hapi
    rw [validateTarget_svc_lookup services idx e hstar henv hname, hfind]

theorem C8_enricher_environment_witness :
    validate_and_enrich_targets (.ok [⟨⟨"svc-a", "Service", "eks:a"⟩⟩])
        [.svc ⟨some "svc-a", none⟩]
      = (.ok [.svc ⟨some "svc-a", some "eks:a"⟩], [.listServices])
    ∧ optTruthy (some "eks:a") = true :=
  ⟨by decide,
   (C8_enricher_environment (.ok [⟨⟨"svc-a", "Service", "eks:a"⟩⟩])).1
     [.svc ⟨some "svc-a", none⟩] [.svc ⟨some "svc-a", some "eks:a"⟩] [.listServices]
     (by decide) ⟨some "svc-a", some "eks:a"⟩ (by decide)⟩

/-! ## Pipeline stage ordering (claim C7) -/

theorem expand_trace_no_backend (targets : List PTarget)
    (svcApi : Except String (List ServiceSummary))
    (sloApi : Except String (List (List SloSummary))) :
    ExtCall.auditBackend ∉ (expand_wildcard_targets targets svcApi sloApi).2 := by
  unfold expand_wildcard_targets
  by_cases h1 : (classifyUnified targets).servicePatterns = []
      ∧ (classifyUnified targets).serviceFuzzy = [] <;>
    by_cases h2 : (classifyUnified targets).sloPatterns = []
        ∧ (classifyUnified targets).sloFuzzy = [] <;>
    cases svcApi <;> cases sloApi <;>
    simp [h1, h2]

theorem validateTarget_trace_no_backend (api : Except String (List ServiceSummary))
    (idx : Nat) (t : PTarget) :
    ExtCall.auditBackend ∉ (validateTarget api idx t).2 := by
  cases t with
  | svc e =>
    rw [validateTarget_svc]
    repeat' split
    all_goals simp
  | sloNested n a =>
    rw [validateTarget_sloNested]
    split <;> simp
  | svcOp n op mt => exact List.not_mem_nil _
  | otherType tag => exact List.not_mem_nil _
  | nonDict tag => exact List.not_mem_nil _

theorem validate_trace_no_backend (api : Except String (List ServiceSummary)) :
    ∀ (ts : List PTarget) (idx : Nat),
      ExtCall.auditBackend ∉ (validate_and_enrich_targets_go api idx ts).2 := by
  intro ts
  induction ts with
  | nil => intro idx; exact List.not_mem_nil _
  | cons t ts ih =>
    intro idx
    unfold validate_and_enrich_targets_go
    split
    · rename_i e1 evs1 heq
      have h1 := validateTarget_trace_no_backend api idx t
      rw [heq] at h1
      exact h1
    · rename_i t' evs1 heq
      have h1 := validateTarget_trace_no_backend api idx t
      rw [heq] at h1
      split
      · rename_i e2 evs2 heq2
        have h2 := ih (idx + 1)
        rw [heq2] at h2
        simp only [List.mem_append]
        intro hx
        rcases hx with hx | hx
        · exact h1 hx
        · exact h2 hx
      · rename_i ts' evs2 heq2
        have h2 := ih (idx + 1)
        rw [heq2] at h2
        simp only [List.mem_append]
        intro hx
        rcases hx with hx | hx
        · exact h1 hx
        · exact h2 hx

theorem pipelineAfterExpansion_invalid {F : Type} (provided : List PTarget)
    (auditorsValue : Option String) (userPrompt : String)
    (svcApi : Except String (List ServiceSummary))
    (backend : Nat → List PTarget → CliResult F PTarget) (evs : List ExtCall)
    (hev : ExtCall.auditBackend ∉ evs)
    (h : invalidAuditors (rawAuditors auditorsValue userPrompt) ≠ []) :
    ExtCall.auditBackend
        ∉ (pipelineAfterExpansion provided auditorsValue userPrompt svcApi backend evs).2
    ∧ ∀ rep, (pipelineAfterExpansion provided auditorsValue userPrompt svcApi
        backend evs).1 ≠ .success rep := by
  have hraw : rawAuditors auditorsValue userPrompt ≠ [] := by
    intro hr
    apply h
    rw [invalidAuditors, hr]
    rfl
  have hpa : parse_auditors auditorsValue userPrompt
      = .error (invalidAuditors (rawAuditors auditorsValue userPrompt)) := by
    simp only [parse_auditors]
    rw [if_neg hraw, if_pos h]
  unfold pipelineAfterExpansion
  split
  · exact ⟨hev, by simp⟩
  · split
    · exact ⟨hev, by simp⟩
    · rename_i normalized heqn
      split
      · rename_i e2 evs2 heqv
        have h2 := validate_trace_no_backend svcApi normalized 1
        rw [show validate_and_enrich_targets_go svcApi 1 normalized
            = (Except.error e2, evs2) from heqv] at h2
        refine ⟨?_, by simp⟩
        simp only [List.mem_append]
        intro hx
        rcases hx with hx | hx
        · exact hev hx
        · exact h2 hx
      · rename_i enriched evs2 heqv
        have h2 := validate_trace_no_backend svcApi normalized 1
        rw [show validate_and_enrich_targets_go svcApi 1 normalized
            = (Except.ok enriched, evs2) from heqv] at h2
        rw [hpa]
        refine ⟨?_, ?_⟩
        · show ExtCall.auditBackend ∉ evs ++ evs2
          simp only [List.mem_append]
          intro hx
          rcases hx with hx | hx
          · exact hev hx
          · exact h2 hx
        · intro rep
          show PipeResult.invalidAuditor _ ≠ PipeResult.success rep
          simp

/-- Counterexample to C7 as stated: with a wildcard service target and an
invalid auditor name, the pipeline performs a catalog call (`list_services`,
during wildcard expansion) before the invalid-auditor error is surfaced —
the input error is not detected before every external call. -/
theorem C7_counterexample :
    audit_services_pipeline (F := Nat) [.svc ⟨some "*", none⟩] (some "bogus") ""
        (.ok scenarioACatalog) (.ok []) trivialBackend
      = (.invalidAuditor ["bogus"], [.listServices])
    ∧ ExtCall.listServices
        ∈ (audit_services_pipeline (F := Nat) [.svc ⟨some "*", none⟩] (some "bogus") ""
            (.ok scenarioACatalog) (.ok []) trivialBackend).2 := by
  decide

/-- C7 (amended): an invalid auditor name always prevents the audit backend
from being invoked — the pipeline result is the invalid-auditor error or an
earlier-stage error, never a success, and the trace contains no backend call;
however catalog calls may already have happened, because wildcard expansion
and validation/enrichment run before auditor validation (see the
counterexample). -/
theorem C7_invalid_auditor_amended {F : Type} (provided : List PTarget)
    (auditorsValue : Option String) (userPrompt : String)
    (svcApi : Except String (List ServiceSummary))
    (sloApi : Except String (List (List SloSummary)))
    (backend : Nat → List PTarget → CliResult F PTarget)
    (h : invalidAuditors (rawAuditors auditorsValue userPrompt) ≠ []) :
    ExtCall.auditBackend
        ∉ (audit_services_pipeline provided auditorsValue userPrompt svcApi sloApi
            backend).2
    ∧ ∀ rep, (audit_services_pipeline provided auditorsValue userPrompt svcApi sloApi
        backend).1 ≠ .success rep := by
  unfold audit_services_pipeline
  split
  · split
    · rename_i e evs heq
      have h1 := expand_trace_no_backend provided svcApi sloApi
      rw [heq] at h1
      exact ⟨h1, by simp⟩
    · rename_i expanded evs heq
      have h1 := expand_trace_no_backend provided svcApi sloApi
      rw [heq] at h1
      exact pipelineAfterExpansion_invalid expanded auditorsValue userPrompt svcApi
        backend evs h1 h
  · exact pipelineAfterExpansion_invalid provided auditorsValue userPrompt svcApi
      backend [] (List.not_mem_nil _) h

theorem C7_invalid_auditor_amended_witness :
    invalidAuditors (rawAuditors (some "bogus") "") ≠ []
    ∧ (ExtCall.auditBackend
        ∉ (audit_services_pipeline (F := Nat) [.svc ⟨some "api-x", some "eks:env"⟩]
            (some "bogus") "" (.ok []) (.ok []) trivialBackend).2
      ∧ ∀ rep, (audit_services_pipeline (F := Nat) [.svc ⟨some "api-x", some "eks:env"⟩]
          (some "bogus") "" (.ok []) (.ok []) trivialBackend).1 ≠ .success rep) :=
  ⟨by decide,
   C7_invalid_auditor_amended [.svc ⟨some "api-x", some "eks:env"⟩] (some "bogus") ""
     (.ok []) (.ok []) trivialBackend (by decide)⟩

/-! ## Name similarity scorer (claim C9) -/

/-- Counterexample to C9 as stated: `" "` is a non-empty string, yet
`score(" ", " ", kind)` is 0, not 100 — the scorer strips whitespace before
the empty-string check, so a whitespace-only name takes the empty-input
early return. -/
theorem C9_counterexample :
    calculate_name_similarity " " " " "service" = 0
    ∧ (" " : String) ≠ ""
    ∧ calculate_name_similarity " " " " "service" ≠ 100 := by
  decide

/-- C9 (amended): the scorer maps into `[0, 100]` (it returns a `Nat` clamped
to 100), `score(x, x, kind) = 100` for every `x` that is non-empty after
lower-casing and stripping whitespace, and `score("", y, kind) = 0` for every
candidate `y`. -/
theorem C9_scorer_amended (x y : String) (k : String) :
    (pyStrip (pyLower x.data) ≠ [] → calculate_name_similarity x x k = 100)
    ∧ calculate_name_similarity "" y k = 0
    ∧ calculate_name_similarity x y k ≤ 100 := by
  refine ⟨?_, ?_, ?_⟩
  · intro hx
    simp [calculate_name_similarity, hx]
  · have hd : pyStrip (pyLower ("" : String).data) = [] := rfl
    simp [calculate_name_similarity, hd]
  · simp only [calculate_name_similarity]
    split
    · omega
    · split
      · omega
      · split
        · omega
        · exact Nat.min_le_left 100 _

theorem C9_scorer_amended_witness :
    pyStrip (pyLower ("orders" : String).data) ≠ []
    ∧ calculate_name_similarity "orders" "orders" "service" = 100 :=
  ⟨by decide, (C9_scorer_amended "orders" "y" "service").1 (by decide)⟩

/-! ## `parse_timestamp` (claim C10) -/

theorem fromtimestamp_ok (t : Int) (h1 : 0 ≤ t) (h2 : t ≤ MAX_DATETIME_TS) :
    datetime_fromtimestamp_utc t = .ok t := by
  unfold MAX_DATETIME_TS at h2
  unfold datetime_fromtimestamp_utc MIN_DATETIME_TS MAX_DATETIME_TS GMTIME_FAIL_TS
    TIME_T_BOUND
  rw [if_neg (by omega), if_neg (by omega), if_neg (by omega)]

theorem fromtimestamp_valueError (t : Int) (h1 : MAX_DATETIME_TS < t)
    (h2 : t < GMTIME_FAIL_TS) :
    datetime_fromtimestamp_utc t = .error .valueError := by
  unfold MAX_DATETIME_TS at h1
  unfold GMTIME_FAIL_TS at h2
  unfold datetime_fromtimestamp_utc MIN_DATETIME_TS MAX_DATETIME_TS GMTIME_FAIL_TS
    TIME_T_BOUND
  rw [if_neg (by omega), if_neg (by omega), if_pos (by omega)]

theorem fromtimestamp_raises (t : Int) (h1 : GMTIME_FAIL_TS ≤ t) :
    datetime_fromtimestamp_utc t = .error .osError
    ∨ datetime_fromtimestamp_utc t = .error .overflowError := by
  unfold GMTIME_FAIL_TS at h1
  unfold datetime_fromtimestamp_utc MIN_DATETIME_TS MAX_DATETIME_TS GMTIME_FAIL_TS
    TIME_T_BOUND
  by_cases hb : (9223372036854775808 : Int) ≤ t ∨ t < -9223372036854775808
  · right
    rw [if_pos hb]
  · left
    rw [if_neg hb, if_pos (by omega)]

/-- Counterexample to C10 as stated: the digit string `"253402300800"` (one
second past year 9999) is *not* interpreted as unix seconds — `fromtimestamp`
raises `ValueError`, which is caught, so the current-time fallback is
returned instead; and `parse_timestamp` is not total: on
`"67768036191676800"` the uncaught `OSError` of `fromtimestamp` propagates. -/
theorem C10_counterexample :
    parse_timestamp "253402300800" 0 24 = .ok ⟨-86400, true⟩
    ∧ pyIsDigit ("253402300800" : String).data = true
    ∧ (PyDatetime.mk (-86400) true).epochUtc ≠ 253402300800
    ∧ parse_timestamp "67768036191676800" 0 24 = .error .osError := by
  decide

/-- C10 (amended): digit strings whose value fits the `datetime` range are
interpreted as unix seconds (aware UTC); digit strings past that range but
below the platform `gmtime` limit fall back to `now - default_hours` like any
unparseable string; digit strings at or beyond the platform limits make
`parse_timestamp` raise (`OSError`/`OverflowError` are not caught); and for
every non-digit string `parse_timestamp` is total — ISO and
`YYYY-MM-DD HH:MM:SS` forms parse (the latter as UTC) and everything else
falls back — so only the `end <= start` check can reject such time inputs. -/
theorem C10_parse_timestamp_amended (s : String) (now dh : Int) :
    (pyIsDigit s.data = true → (digitsToNat s.data : Int) ≤ MAX_DATETIME_TS →
      parse_timestamp s now dh = .ok ⟨(digitsToNat s.data : Int), true⟩)
    ∧ (pyIsDigit s.data = true → MAX_DATETIME_TS < (digitsToNat s.data : Int) →
      (digitsToNat s.data : Int) < GMTIME_FAIL_TS →
      parse_timestamp s now dh = .ok ⟨now - dh * 3600, true⟩)
    ∧ (pyIsDigit s.data = true → GMTIME_FAIL_TS ≤ (digitsToNat s.data : Int) →
      ∃ e, parse_timestamp s now dh = .error e)
    ∧ (pyIsDigit s.data = false → ∃ dt, parse_timestamp s now dh = .ok dt) := by
  refine ⟨?_, ?_, ?_, ?_⟩
  · intro hdig hle
    simp only [parse_timestamp]
    rw [if_pos hdig, fromtimestamp_ok _ (Int.natCast_nonneg _) hle]
  · intro hdig hgt hlt
    simp only [parse_timestamp]
    rw [if_pos hdig, fromtimestamp_valueError _ hgt hlt]
  · intro hdig hge
    simp only [parse_timestamp]
    rw [if_pos hdig]
    rcases fromtimestamp_raises _ hge with hcase | hcase
    · exact ⟨.osError, by rw [hcase]⟩
    · exact ⟨.overflowError, by rw [hcase]⟩

  · intro hdig
    simp only [parse_timestamp]
    rw [if_neg (by simp [hdig])]
    by_cases hT : s.data.contains 'T'
    · rw [if_pos hT]
      cases datetime_fromisoformat (String.mk (replaceZ s.data)) with
      | ok dt => exact ⟨dt, rfl⟩
      | error e => exact ⟨⟨now - dh * 3600, true⟩, rfl⟩
    · rw [if_neg hT]
      cases datetime_strptime_utc s with
      | ok dt => exact ⟨dt, rfl⟩
      | error e => exact ⟨⟨now - dh * 3600, true⟩, rfl⟩

theorem C10_parse_timestamp_amended_witness :
    pyIsDigit ("1700000000" : String).data = true
    ∧ (digitsToNat ("1700000000" : String).data : Int) ≤ MAX_DATETIME_TS
    ∧ parse_timestamp "1700000000" 0 24
        = .ok ⟨(digitsToNat ("1700000000" : String).data : Int), true⟩ :=
  ⟨by decide, by decide,
   (C10_parse_timestamp_amended "1700000000" 0 24).1 (by decide) (by decide)⟩

end AppSignals
